import Mathlib

/-!
# CrashLog.cpp: a shallow embedding

Embedding of `src/plugin/CobbBugFixes/Services/CrashLog.cpp`.

* 32-bit machine words (`UInt32`, `uint32_t`, `DWORD`) are natural numbers,
  and every addition or subtraction the source performs on them is reduced
  modulo `2 ^ 32`.
* The label table (`g_labels`, `g_labelCount`, declared in
  `CrashLogDefinitions.h`) is a parameter: a list of `CrashLogLabel`.
* Log output (`_MESSAGE`) is a list of structured `Line` values, one
  constructor per format string of the source.
* OS queries (`EnumProcessModules`, `GetModuleInformation`,
  `GetModuleFileNameEx`) are parameters carried by the crash input; each one
  can succeed, fail (return zero) or raise a C++ exception. `_MESSAGE` is taken
  to return. A function that can be left by an exception returns the lines it
  printed together with a flag telling whether an exception left it.
* The process-wide state (`caught`, `s_originalFilter`, the filter registered
  with the OS) is passed explicitly as a `Process`.
-/

namespace CrashLog

/-! ## Data model -/

/-- The modulus of 32-bit unsigned arithmetic. -/
def wordModulus : Nat := 2 ^ 32

/-- Kinds of label, `CrashLogLabel::Type`. The source names `subroutine` and
`vtbl`; every other kind is `other`. -/
inductive LabelType where
  | subroutine
  | vtbl
  | other
  deriving DecidableEq, Repr

/-- A labelled address range, `CrashLogLabel`. -/
structure CrashLogLabel where
  start : Nat
  size : Nat
  name : String
  type : LabelType
  deriving DecidableEq, Repr

/-- The loop condition of `GetLabel` (line 16):
`addr >= entry.start && addr <= (entry.start + entry.size)`, the sum taken in
32-bit unsigned arithmetic. -/
def labelMatches (addr : Nat) (entry : CrashLogLabel) : Bool :=
  decide (addr ≥ entry.start) &&
    decide (addr ≤ (entry.start + entry.size) % wordModulus)

/-- The `for` loop of `GetLabel` from index `i` on, over the entries that
remain; gives the index at which the loop returns. -/
def GetLabelLoop (addr : Nat) : List CrashLogLabel → Nat → Option Nat
  | [], _ => none
  | entry :: rest, i =>
    if labelMatches addr entry then some i else GetLabelLoop addr rest (i + 1)

/-- Index of the entry whose address `GetLabel` returns. -/
def GetLabelIndex (g_labels : List CrashLogLabel) (addr : Nat) : Option Nat :=
  GetLabelLoop addr g_labels 0

/-- The function `GetLabel` (lines 13-20): the entry returned, `none` for `nullptr`. -/
def GetLabel (g_labels : List CrashLogLabel) (addr : Nat) : Option CrashLogLabel :=
  match GetLabelIndex g_labels addr with
  | some i => g_labels[i]?
  | none => none

/-- The range of an entry as the code computes it: `start ≤ addr` and
`addr ≤ (start + size) mod 2^32`. -/
def inRange (entry : CrashLogLabel) (addr : Nat) : Prop :=
  entry.start ≤ addr ∧ addr ≤ (entry.start + entry.size) % wordModulus

/-- The range of an entry read without wrap-around: `start ≤ addr ≤ start + size`. -/
def inIdealRange (entry : CrashLogLabel) (addr : Nat) : Prop :=
  entry.start ≤ addr ∧ addr ≤ entry.start + entry.size

instance (entry : CrashLogLabel) (addr : Nat) : Decidable (inRange entry addr) := by
  unfold inRange; infer_instance

instance (entry : CrashLogLabel) (addr : Nat) : Decidable (inIdealRange entry addr) := by
  unfold inIdealRange; infer_instance

/-! ## Log lines -/

/-- One `_MESSAGE` call; a constructor per format string of the source, with
the formatted arguments as fields. -/
inductive Line where
  /-- Line 26. -/
  | header
  /-- Line 32: `eip`, label name. -/
  | eipNotSubroutine (eip : Nat) (name : String)
  /-- Line 34: `eip`, label name, `eip - label->start`. -/
  | eipSubroutine (eip : Nat) (name : String) (offset : Nat)
  /-- Line 37. -/
  | eipBare (eip : Nat)
  /-- Line 40. -/
  | regHeader
  /-- Lines 41-47. -/
  | reg (name : String) (value : Nat)
  /-- Line 49. -/
  | stackHeader (esp : Nat)
  /-- Line 56: the word alone. -/
  | stackRaw (p : Nat)
  /-- Line 59: the word and `VTBL:` followed by the label name. -/
  | stackVtbl (p : Nat) (name : String)
  /-- Line 61: the word and the bare label name. -/
  | stackLabel (p : Nat) (name : String)
  /-- Lines 66 and 104. -/
  | blank
  /-- Line 86: `eip - base` and the module file name. -/
  | crashedAt (offset : Nat) (modName : String)
  /-- Line 87. -/
  | crashedNote
  /-- Line 96. -/
  | unableToIdentify
  /-- Line 97. -/
  | unableNote
  /-- Line 106. -/
  | listingHeader
  /-- Line 113: handle, end address, file name. -/
  | moduleLine (handle : Nat) (endAddr : Nat) (modName : String)
  /-- Line 115: handle, file name; end address unknown. -/
  | moduleLineUnknownEnd (handle : Nat) (modName : String)
  /-- Line 119. -/
  | tooMany
  /-- Line 120. -/
  | endOfList
  /-- Line 122. -/
  | failedToPrint
  /-- Line 124. -/
  | allDataPrinted
  /-- Line 126. -/
  | unableToExamine
  /-- Line 153. -/
  | appliedFilter
  deriving DecidableEq, Repr

/-- Whether a line is one of the two module lines of the listing (113, 115). -/
def Line.isModuleLine : Line → Bool
  | .moduleLine _ _ _ => true
  | .moduleLineUnknownEnd _ _ => true
  | _ => false

/-- Whether a line is the faulting-module identification (line 86). -/
def Line.isCrashedAt : Line → Bool
  | .crashedAt _ _ => true
  | _ => false

/-! ## Crash input -/

/-- The registers of `info->ContextRecord` that the report reads. -/
structure Context where
  Eip : Nat
  Eax : Nat
  Ebx : Nat
  Ecx : Nat
  Edx : Nat
  Edi : Nat
  Esi : Nat
  Ebp : Nat
  Esp : Nat

/-- Result of an OS query: success with a value, failure (the call returns
zero), or an exception raised inside the call. -/
inductive Outcome (α : Type) where
  | ok (a : α)
  | failed
  | raised
  deriving DecidableEq, Repr

/-- The fields of `MODULEINFO` that the report reads. -/
structure MODULEINFO where
  lpBaseOfDll : Nat
  SizeOfImage : Nat
  deriving DecidableEq, Repr

/-- What `_logCrash` observes: the context record, the words `esp[i]` of a
readable stack, and the answers of the OS. `EnumProcessModules` gives
`bytesNeeded`; the per-module queries are indexed by the slot `i` of
`modules[i]`, separately for the identification loop (lines 78-94) and for the
listing loop (lines 108-117), since each loop queries the OS anew. -/
structure CrashInput where
  ContextRecord : Context
  stack : Nat → Nat
  EnumProcessModules : Outcome Nat
  modules : Nat → Nat
  identInformation : Nat → Outcome MODULEINFO
  identFileName : Nat → Outcome String
  listFileName : Nat → Outcome String
  listInformation : Nat → Outcome MODULEINFO

/-! ## `_logCrash` -/

/-- Line 10. -/
def ce_printStackCount : Nat := 40

/-- Line 67. -/
def LOAD_COUNT : Nat := 140

/-- The value of `sizeof(HMODULE)` on the 32-bit target of the program. -/
def sizeofHMODULE : Nat := 4

/-- Lines 29-38: the instruction pointer line. -/
def eipLine (g_labels : List CrashLogLabel) (eip : Nat) : Line :=
  match GetLabel g_labels eip with
  | some label =>
    if label.type ≠ LabelType.subroutine then
      Line.eipNotSubroutine eip label.name
    else
      Line.eipSubroutine eip label.name ((eip + wordModulus - label.start) % wordModulus)
  | none => Line.eipBare eip

/-- Lines 53-62: the body of the stack loop for the word `p`. -/
def stackLine (g_labels : List CrashLogLabel) (p : Nat) : Line :=
  match GetLabel g_labels p with
  | none => Line.stackRaw p
  | some label =>
    if label.type = LabelType.vtbl then
      Line.stackVtbl p label.name
    else
      Line.stackLabel p label.name

/-- Lines 52-63: `do { ... } while (++i < ce_printStackCount)` entered with
index `i`. -/
def printStack (g_labels : List CrashLogLabel) (stack : Nat → Nat) (i : Nat) : List Line :=
  if i + 1 < ce_printStackCount then
    stackLine g_labels (stack i) :: printStack g_labels stack (i + 1)
  else
    [stackLine g_labels (stack i)]
termination_by ce_printStackCount - i

/-- Line 72: `bytesNeeded > LOAD_COUNT * sizeof(HMODULE)` (given success). -/
def overflowFlag (bytesNeeded : Nat) : Bool :=
  decide (bytesNeeded > LOAD_COUNT * sizeofHMODULE)

/-- Line 74: `min(bytesNeeded / sizeof(HMODULE), LOAD_COUNT)`. -/
def moduleCount (bytesNeeded : Nat) : Nat :=
  min (bytesNeeded / sizeofHMODULE) LOAD_COUNT

/-- How the identification loop (lines 78-94) ends. -/
inductive IdentExit where
  /-- The loop sets `found = true` and leaves by `break`, after printing lines 86-87. -/
  | found (i : Nat) (offset : Nat) (modName : String)
  /-- The loop ran to `count` with `found` still false. -/
  | exhausted
  /-- An OS query raised. -/
  | raised
  deriving DecidableEq, Repr

/-- Lines 78-94: the loop from slot `i` with `remaining` slots left
(`remaining = count - i`). -/
def identifyLoop (inp : CrashInput) (eip : Nat) : Nat → Nat → IdentExit
  | 0, _ => IdentExit.exhausted
  | remaining + 1, i =>
    match inp.identInformation i with
    | Outcome.raised => IdentExit.raised
    | Outcome.failed => identifyLoop inp eip remaining (i + 1)
    | Outcome.ok moduleData =>
      let base := moduleData.lpBaseOfDll % wordModulus
      let endAddr := (base + moduleData.SizeOfImage) % wordModulus
      if eip ≥ base ∧ eip < endAddr then
        match inp.identFileName i with
        | Outcome.raised => IdentExit.raised
        | Outcome.failed => identifyLoop inp eip remaining (i + 1)
        | Outcome.ok szModName =>
          IdentExit.found i ((eip + wordModulus - base) % wordModulus) szModName
      else identifyLoop inp eip remaining (i + 1)

/-- Lines 75-105: the lines of the faulting-module step, and whether an
exception left it. -/
def identifyModule (inp : CrashInput) (eip count : Nat) : List Line × Bool :=
  match identifyLoop inp eip count 0 with
  | IdentExit.found _ offset szModName =>
    ([Line.crashedAt offset szModName, Line.crashedNote, Line.blank], false)
  | IdentExit.exhausted =>
    ([Line.unableToIdentify, Line.unableNote, Line.blank], false)
  | IdentExit.raised => ([], true)

/-- Lines 108-117: the listing loop from slot `i` with `remaining` slots left;
gives the lines printed and whether an exception ended the loop. -/
def listLoop (inp : CrashInput) : Nat → Nat → List Line × Bool
  | 0, _ => ([], false)
  | remaining + 1, i =>
    match inp.listFileName i with
    | Outcome.raised => ([], true)
    | Outcome.failed => listLoop inp remaining (i + 1)
    | Outcome.ok szModName =>
      match inp.listInformation i with
      | Outcome.raised => ([], true)
      | Outcome.ok info =>
        let rest := listLoop inp remaining (i + 1)
        (Line.moduleLine (inp.modules i)
            ((info.lpBaseOfDll % wordModulus + info.SizeOfImage) % wordModulus) szModName
          :: rest.1, rest.2)
      | Outcome.failed =>
        let rest := listLoop inp remaining (i + 1)
        (Line.moduleLineUnknownEnd (inp.modules i) szModName :: rest.1, rest.2)

/-- Lines 107-123: the `try` block and its `catch (...)`. -/
def listModules (inp : CrashInput) (count : Nat) (overflow : Bool) : List Line :=
  let loop := listLoop inp count 0
  if loop.2 then
    loop.1 ++ [Line.failedToPrint]
  else
    loop.1 ++ (if overflow then [Line.tooMany] else []) ++ [Line.endOfList]

/-- Lines 65-128: the module block; the lines printed and whether an exception
leaves the block. -/
def moduleDebug (inp : CrashInput) (eip : Nat) : List Line × Bool :=
  match inp.EnumProcessModules with
  | Outcome.raised => ([Line.blank], true)
  | Outcome.failed => ([Line.blank, Line.unableToExamine], false)
  | Outcome.ok bytesNeeded =>
    let overflow := overflowFlag bytesNeeded
    let count := moduleCount bytesNeeded
    let ident := identifyModule inp eip count
    if ident.2 then
      (Line.blank :: ident.1, true)
    else
      (Line.blank :: ident.1 ++ [Line.listingHeader] ++ listModules inp count overflow
        ++ [Line.allDataPrinted], false)

/-- Lines 26-64: header, instruction pointer, registers and stack. -/
def registersAndStack (g_labels : List CrashLogLabel) (inp : CrashInput) : List Line :=
  let c := inp.ContextRecord
  [Line.header, eipLine g_labels c.Eip, Line.regHeader,
    Line.reg "eax" c.Eax, Line.reg "ebx" c.Ebx, Line.reg "ecx" c.Ecx,
    Line.reg "edx" c.Edx, Line.reg "edi" c.Edi, Line.reg "esi" c.Esi,
    Line.reg "ebp" c.Ebp, Line.stackHeader c.Esp]
    ++ printStack g_labels inp.stack 0

/-- The function `_logCrash` (lines 25-129): the report, and whether an exception
propagates out of the function. -/
def _logCrash (g_labels : List CrashLogLabel) (inp : CrashInput) : List Line × Bool :=
  let block := moduleDebug inp inp.ContextRecord.Eip
  (registersAndStack g_labels inp ++ block.1, block.2)

/-! ## Reading the report -/

/-- Whether a line is the "unable to identify" message (line 96). -/
def Line.isUnableToIdentify : Line → Bool
  | .unableToIdentify => true
  | _ => false

/-- Number of faulting-module identifications (line 86) in a log. -/
def countCrashedAt (log : List Line) : Nat :=
  (log.filter Line.isCrashedAt).length

/-- Number of "unable to identify" messages (line 96) in a log. -/
def countUnableToIdentify (log : List Line) : Nat :=
  (log.filter Line.isUnableToIdentify).length

/-- Number of module lines (lines 113 and 115) in a log. -/
def countModuleLines (log : List Line) : Nat :=
  (log.filter Line.isModuleLine).length

/-- What one pass of the identification loop body (lines 79-93) does at slot
`i`: report the module and `break`, go on to the next slot, or raise. -/
inductive SlotVerdict where
  | reports (offset : Nat) (modName : String)
  | skips
  | raises
  deriving DecidableEq, Repr

/-- Lines 79-93 at slot `i`. -/
def slotVerdict (inp : CrashInput) (eip : Nat) (i : Nat) : SlotVerdict :=
  match inp.identInformation i with
  | Outcome.raised => SlotVerdict.raises
  | Outcome.failed => SlotVerdict.skips
  | Outcome.ok moduleData =>
    let base := moduleData.lpBaseOfDll % wordModulus
    let endAddr := (base + moduleData.SizeOfImage) % wordModulus
    if eip ≥ base ∧ eip < endAddr then
      match inp.identFileName i with
      | Outcome.raised => SlotVerdict.raises
      | Outcome.failed => SlotVerdict.skips
      | Outcome.ok szModName =>
        SlotVerdict.reports ((eip + wordModulus - base) % wordModulus) szModName
    else SlotVerdict.skips

/-- The queries of the identification loop at slot `i` return (succeed or
fail) rather than raise. -/
def identReturns (inp : CrashInput) (i : Nat) : Prop :=
  inp.identInformation i ≠ Outcome.raised ∧ inp.identFileName i ≠ Outcome.raised

instance (inp : CrashInput) (i : Nat) : Decidable (identReturns inp i) := by
  unfold identReturns; infer_instance

/-- The instruction pointer lies in `[base, base + imageSize)` for the module
information `info`, bounds read in unbounded arithmetic. -/
def inModule (info : MODULEINFO) (eip : Nat) : Prop :=
  info.lpBaseOfDll ≤ eip ∧ eip < info.lpBaseOfDll + info.SizeOfImage

instance (info : MODULEINFO) (eip : Nat) : Decidable (inModule info eip) := by
  unfold inModule; infer_instance

/-- The query succeeded. -/
def Outcome.isOk {α : Type} : Outcome α → Bool
  | Outcome.ok _ => true
  | _ => false

/-- The query raised. -/
def Outcome.isRaised {α : Type} : Outcome α → Bool
  | Outcome.raised => true
  | _ => false

/-- One pass of the listing loop body (lines 109-116) at slot `i` raises: the
file-name query raises, or it succeeds and the information query raises. -/
def listRaisesAt (inp : CrashInput) (i : Nat) : Bool :=
  match inp.listFileName i with
  | Outcome.raised => true
  | Outcome.failed => false
  | Outcome.ok _ => (inp.listInformation i).isRaised

/-! ## `_filter` and `SetupCrashLogging` -/

/-- A top-level exception filter, as a value of `LPTOP_LEVEL_EXCEPTION_FILTER`
other than `nullptr`: the address of `_filter`, or some other function. -/
inductive FilterRef where
  /-- The address `&_filter`. -/
  | ours
  /-- A filter of some other component, told apart by its address. -/
  | foreign (address : Nat)
  deriving DecidableEq, Repr

/-- The constant `EXCEPTION_CONTINUE_SEARCH` of the Windows headers. -/
def EXCEPTION_CONTINUE_SEARCH : Int := 0

/-- The constant `EXCEPTION_EXECUTE_HANDLER` of the Windows headers. -/
def EXCEPTION_EXECUTE_HANDLER : Int := 1

/-- The process-wide state the file touches: the static `caught` of `_filter`,
`s_originalFilter` (line 23), the filter registered with the OS, and the log. -/
structure Process where
  caught : Bool
  s_originalFilter : Option FilterRef
  registered : Option FilterRef
  log : List Line
  deriving DecidableEq, Repr

/-- The state at program start: `caught = false`, `s_originalFilter = nullptr`. -/
def Process.initial (registered : Option FilterRef) : Process :=
  { caught := false, s_originalFilter := none, registered := registered, log := [] }

/-- What one invocation of `_filter` does besides writing the log. -/
inductive Event where
  /-- The call `_logCrash(info)` of line 137; `raised` tells whether it threw. -/
  | logCrash (raised : Bool)
  /-- The call `s_originalFilter(info)` of line 142 and the value it returned. -/
  | chain (target : FilterRef) (returned : Int)
  deriving DecidableEq, Repr

/-- Result of one invocation of `_filter`. -/
structure FilterResult where
  state : Process
  events : List Event
  disposition : Int
  deriving DecidableEq, Repr

/-- Lines 141-142: the call of the previous filter, when there is one;
`previousReturn` is the value that filter returns. -/
def chainEvents (s_originalFilter : Option FilterRef) (previousReturn : Int) : List Event :=
  match s_originalFilter with
  | some f => [Event.chain f previousReturn]
  | none => []

/-- The function `_filter` (lines 130-144). `previousReturn` is the value the
previous filter returns if it is called. The triple `step` is the state, the
events and the local `ignored` after the `if`/`else` of lines 134-140; the
`catch (...)` of line 138 swallows whatever `_logCrash` throws. -/
def _filter (g_labels : List CrashLogLabel) (p : Process) (info : CrashInput)
    (previousReturn : Int) : FilterResult :=
  let step : Process × List Event × Bool :=
    if !p.caught then
      let report := _logCrash g_labels info
      ({ p with caught := true, log := p.log ++ report.1 }, [Event.logCrash report.2], false)
    else
      (p, [], true)
  let ignored := step.2.2
  { state := step.1
    events := step.2.1 ++ chainEvents p.s_originalFilter previousReturn
    disposition := if !ignored then EXCEPTION_CONTINUE_SEARCH else EXCEPTION_EXECUTE_HANDLER }

/-- Successive invocations of `_filter`, one per crash delivered; each crash
comes with the value the previous filter would return. -/
def runFilter (g_labels : List CrashLogLabel) (p : Process) :
    List (CrashInput × Int) → List FilterResult
  | [] => []
  | (info, previousReturn) :: rest =>
    let r := _filter g_labels p info previousReturn
    r :: runFilter g_labels r.state rest

/-- The call `SetUnhandledExceptionFilter(f)`: registers `f` and returns the filter that
was registered before. -/
def SetUnhandledExceptionFilter (p : Process) (f : FilterRef) : Process × Option FilterRef :=
  ({ p with registered := some f }, p.registered)

/-- The function `SetupCrashLogging` (lines 146-155); `enabled` is
`INI::CrashLogging::Enabled.bCurrent`. -/
def SetupCrashLogging (enabled : Bool) (p : Process) : Process :=
  if enabled == false then
    p
  else
    let r := SetUnhandledExceptionFilter p FilterRef.ours
    let f := r.2
    if f ≠ some FilterRef.ours then
      { r.1 with s_originalFilter := f, log := r.1.log ++ [Line.appliedFilter] }
    else
      r.1

/-- Number of `_logCrash` calls among the events. -/
def countLogCrash (events : List Event) : Nat :=
  (events.filter fun e => match e with
    | Event.logCrash _ => true
    | Event.chain _ _ => false).length

/-- Number of calls of the previous filter among the events. -/
def countChain (events : List Event) : Nat :=
  (events.filter fun e => match e with
    | Event.logCrash _ => false
    | Event.chain _ _ => true).length

/-- Successive calls of `SetupCrashLogging`, one per value of the
configuration flag. -/
def runSetup (p : Process) : List Bool → Process
  | [] => p
  | enabled :: rest => runSetup (SetupCrashLogging enabled p) rest

/-! ## Sample data -/

/-- A small label table: a subroutine, a vtable overlapping it, and a data
label. -/
def sampleLabels : List CrashLogLabel :=
  [ { start := 0x401000, size := 0x40, name := "TESForm::Load", type := LabelType.subroutine },
    { start := 0x401020, size := 0x100, name := "TESForm", type := LabelType.vtbl },
    { start := 0x500000, size := 0x8, name := "g_thePlayer", type := LabelType.other } ]

/-- A register snapshot with the instruction pointer inside `TESForm::Load`. -/
def sampleContext : Context :=
  { Eip := 0x401010, Eax := 1, Ebx := 2, Ecx := 3, Edx := 4, Edi := 5, Esi := 6,
    Ebp := 0x12FF40, Esp := 0x12FF00 }

/-- A crash with three modules loaded at `0x400000`, `0x500000`, `0x600000`,
each `0x100000` bytes long; every OS query succeeds. -/
def sampleCrash : CrashInput :=
  { ContextRecord := sampleContext
    stack := fun i => if i = 0 then 0x401030 else if i = 1 then 0x401100 else i
    EnumProcessModules := Outcome.ok 12
    modules := fun i => 0x400000 + i * 0x100000
    identInformation := fun i => Outcome.ok ⟨0x400000 + i * 0x100000, 0x100000⟩
    identFileName := fun _ => Outcome.ok "TESV.exe"
    listFileName := fun _ => Outcome.ok "TESV.exe"
    listInformation := fun i => Outcome.ok ⟨0x400000 + i * 0x100000, 0x100000⟩ }

/-- As `sampleCrash`, but the file-name query of the identification loop
raises, so that `_logCrash` throws. -/
def throwingCrash : CrashInput :=
  { sampleCrash with identFileName := fun _ => Outcome.raised }

/-- A process in which our filter is registered and the filter at address 7
was captured as the previous one; no crash has been seen yet. -/
def installedProcess : Process :=
  { caught := false, s_originalFilter := some (FilterRef.foreign 7),
    registered := some FilterRef.ours, log := [] }

/-- As `sampleCrash`, but the file-name query of the identification loop
fails (returns zero) for every module. -/
def nameFailsCrash : CrashInput :=
  { sampleCrash with identFileName := fun _ => Outcome.failed }

/-- A crash with 141 modules loaded (`bytesNeeded = 564`); every OS query
succeeds. -/
def crowdedCrash : CrashInput :=
  { sampleCrash with EnumProcessModules := Outcome.ok 564 }

/-- As `crowdedCrash`, but the file-name query of the listing loop fails for
every module. -/
def crowdedNamelessCrash : CrashInput :=
  { crowdedCrash with listFileName := fun _ => Outcome.failed }

/-! ## Lemmas on `GetLabel` -/

theorem labelMatches_iff (addr : Nat) (entry : CrashLogLabel) :
    labelMatches addr entry = true ↔ inRange entry addr := by
  simp [labelMatches, inRange]

/-- Characterisation of the loop: it returns `i + k` exactly when position `k`
of the remaining entries matches and no earlier position does. -/
theorem GetLabelLoop_eq_some (addr : Nat) (l : List CrashLogLabel) (i r : Nat) :
    GetLabelLoop addr l i = some r ↔
      ∃ k, r = i + k ∧ (∃ e, l[k]? = some e ∧ inRange e addr) ∧
        ∀ j, j < k → ∀ e, l[j]? = some e → ¬ inRange e addr := by
  induction l generalizing i with
  | nil => simp [GetLabelLoop]
  | cons entry rest ih =>
    unfold GetLabelLoop
    by_cases hm : labelMatches addr entry = true
    · have hr := (labelMatches_iff addr entry).1 hm
      simp only [hm, if_true, Option.some.injEq]
      constructor
      · intro h
        refine ⟨0, by omega, ⟨entry, by simp, hr⟩, ?_⟩
        intro j hj; omega
      · rintro ⟨k, hk, _, hmin⟩
        cases k with
        | zero => omega
        | succ k => exact absurd hr (hmin 0 (by omega) entry (by simp))
    · have hr : ¬ inRange entry addr := fun h => hm ((labelMatches_iff addr entry).2 h)
      simp only [hm, if_false, Bool.false_eq_true]
      rw [ih]
      constructor
      · rintro ⟨k, hk, ⟨e, he, hin⟩, hmin⟩
        refine ⟨k + 1, by omega, ⟨e, by simpa using he, hin⟩, ?_⟩
        intro j hj e' he'
        cases j with
        | zero =>
          simp at he'
          subst he'
          exact hr
        | succ j => exact hmin j (by omega) e' (by simpa using he')
      · rintro ⟨k, hk, ⟨e, he, hin⟩, hmin⟩
        cases k with
        | zero =>
          simp at he
          subst he
          exact absurd hin hr
        | succ k =>
          refine ⟨k, by omega, ⟨e, by simpa using he, hin⟩, ?_⟩
          intro j hj e' he'
          exact hmin (j + 1) (by omega) e' (by simpa using he')

theorem GetLabelLoop_eq_none (addr : Nat) (l : List CrashLogLabel) (i : Nat) :
    GetLabelLoop addr l i = none ↔ ∀ e ∈ l, ¬ inRange e addr := by
  induction l generalizing i with
  | nil => simp [GetLabelLoop]
  | cons entry rest ih =>
    unfold GetLabelLoop
    by_cases hm : labelMatches addr entry = true
    · have hr := (labelMatches_iff addr entry).1 hm
      simp only [hm, if_true]
      constructor
      · intro h; cases h
      · intro h; exact absurd hr (h entry (by simp))
    · have hr : ¬ inRange entry addr := fun h => hm ((labelMatches_iff addr entry).2 h)
      simp only [hm, if_false, Bool.false_eq_true, ih, List.mem_cons]
      constructor
      · intro h e he
        rcases he with rfl | he
        · exact hr
        · exact h e he
      · intro h e he
        exact h e (Or.inr he)

/-- When some entry's range holds the address, the loop stops at the first
such entry and `GetLabel` returns it. -/
theorem GetLabel_first_match (g_labels : List CrashLogLabel) (addr : Nat)
    (h : ∃ e ∈ g_labels, inRange e addr) :
    ∃ i e, GetLabelIndex g_labels addr = some i ∧ g_labels[i]? = some e ∧
      GetLabel g_labels addr = some e ∧ inRange e addr ∧
      ∀ j, j < i → ∀ e', g_labels[j]? = some e' → ¬ inRange e' addr := by
  cases hres : GetLabelLoop addr g_labels 0 with
  | none =>
    obtain ⟨e, hmem, hin⟩ := h
    exact absurd hin ((GetLabelLoop_eq_none addr g_labels 0).1 hres e hmem)
  | some r =>
    obtain ⟨k, hk, ⟨e, he, hin⟩, hmin⟩ := (GetLabelLoop_eq_some addr g_labels 0 r).1 hres
    have hrk : r = k := by omega
    subst hrk
    refine ⟨r, e, hres, he, ?_, hin, hmin⟩
    simp [GetLabel, GetLabelIndex, hres, he]

/-- For an entry that ends inside the 32-bit address space the range the code
computes is the range `start ≤ addr ≤ start + size`. -/
theorem inRange_iff_ideal (e : CrashLogLabel) (addr : Nat)
    (h : e.start + e.size < wordModulus) : inRange e addr ↔ inIdealRange e addr := by
  simp [inRange, inIdealRange, Nat.mod_eq_of_lt h]

theorem GetLabel_none_of_outside (g_labels : List CrashLogLabel) (addr : Nat)
    (h : ∀ e ∈ g_labels, ¬ inRange e addr) : GetLabel g_labels addr = none := by
  have := (GetLabelLoop_eq_none addr g_labels 0).2 h
  simp [GetLabel, GetLabelIndex, this]

/-! ## Lemmas on the stack scan -/

/-- Closed form of the `do`/`while` loop entered at index `i ≤ 39`. -/
theorem printStack_eq_map (g_labels : List CrashLogLabel) (stack : Nat → Nat) :
    ∀ n i, i + n = 39 →
      printStack g_labels stack i =
        (List.range' i (n + 1)).map (fun k => stackLine g_labels (stack k)) := by
  intro n
  induction n with
  | zero =>
    intro i hi
    have h39 : i = 39 := by omega
    subst h39
    rw [printStack]
    simp [ce_printStackCount, List.range']
  | succ n ih =>
    intro i hi
    rw [printStack]
    have hlt : i + 1 < ce_printStackCount := by simp [ce_printStackCount]; omega
    rw [if_pos hlt, ih (i + 1) (by omega)]
    simp [List.range']

theorem printStack_zero (g_labels : List CrashLogLabel) (stack : Nat → Nat) :
    printStack g_labels stack 0 =
      (List.range 40).map (fun k => stackLine g_labels (stack k)) := by
  rw [printStack_eq_map g_labels stack 39 0 (by omega), List.range_eq_range']

theorem stackLine_kind (g_labels : List CrashLogLabel) (p : Nat) :
    (stackLine g_labels p).isCrashedAt = false ∧
      (stackLine g_labels p).isUnableToIdentify = false ∧
      (stackLine g_labels p).isModuleLine = false ∧
      stackLine g_labels p ≠ Line.failedToPrint ∧
      stackLine g_labels p ≠ Line.allDataPrinted := by
  unfold stackLine
  cases GetLabel g_labels p with
  | none => simp [Line.isCrashedAt, Line.isUnableToIdentify, Line.isModuleLine]
  | some label =>
    by_cases h : label.type = LabelType.vtbl <;>
      simp [h, Line.isCrashedAt, Line.isUnableToIdentify, Line.isModuleLine]

/-! ## Lemmas on the identification loop -/

theorem identifyLoop_succ (inp : CrashInput) (eip n i : Nat) :
    identifyLoop inp eip (n + 1) i =
      match slotVerdict inp eip i with
      | SlotVerdict.reports offset modName => IdentExit.found i offset modName
      | SlotVerdict.skips => identifyLoop inp eip n (i + 1)
      | SlotVerdict.raises => IdentExit.raised := by
  rw [identifyLoop]
  unfold slotVerdict
  cases inp.identInformation i with
  | raised => rfl
  | failed => rfl
  | ok moduleData =>
    simp only
    split
    · cases inp.identFileName i <;> rfl
    · rfl

theorem slotVerdict_ne_raises (inp : CrashInput) (eip i : Nat) (h : identReturns inp i) :
    slotVerdict inp eip i ≠ SlotVerdict.raises := by
  unfold slotVerdict
  obtain ⟨h1, h2⟩ := h
  cases hi : inp.identInformation i with
  | raised => exact absurd hi h1
  | failed => simp
  | ok moduleData =>
    simp only
    split
    · cases hn : inp.identFileName i with
      | raised => exact absurd hn h2
      | failed => simp
      | ok name => simp
    · simp

/-- The loop stops at the first slot that reports, when every slot before it
skips. -/
theorem identifyLoop_found (inp : CrashInput) (eip : Nat) (offset : Nat) (modName : String) :
    ∀ n i k, k < n → slotVerdict inp eip (i + k) = SlotVerdict.reports offset modName →
      (∀ j, j < k → slotVerdict inp eip (i + j) = SlotVerdict.skips) →
      identifyLoop inp eip n i = IdentExit.found (i + k) offset modName := by
  intro n
  induction n with
  | zero => intro i k hk; omega
  | succ n ih =>
    intro i k hk hrep hskip
    rw [identifyLoop_succ]
    cases k with
    | zero =>
      simp only [Nat.add_zero] at hrep ⊢
      rw [hrep]
    | succ k =>
      have h0 := hskip 0 (by omega)
      simp only [Nat.add_zero] at h0
      rw [h0]
      have := ih (i + 1) k (by omega) (by rw [← hrep]; congr 1; omega)
        (fun j hj => by rw [← hskip (j + 1) (by omega)]; congr 1; omega)
      rw [this, show i + 1 + k = i + (k + 1) by omega]

/-- The loop runs to the end when every slot skips. -/
theorem identifyLoop_exhausted (inp : CrashInput) (eip : Nat) :
    ∀ n i, (∀ k, k < n → slotVerdict inp eip (i + k) = SlotVerdict.skips) →
      identifyLoop inp eip n i = IdentExit.exhausted := by
  intro n
  induction n with
  | zero => intro i _; rfl
  | succ n ih =>
    intro i hskip
    rw [identifyLoop_succ]
    have h0 := hskip 0 (by omega)
    simp only [Nat.add_zero] at h0
    rw [h0]
    exact ih (i + 1) (fun k hk => by rw [← hskip (k + 1) (by omega)]; congr 1; omega)

/-- When no slot raises, the loop ends by reporting some slot or by running
out of slots. -/
theorem identifyLoop_returns (inp : CrashInput) (eip : Nat) :
    ∀ n i, (∀ k, k < n → slotVerdict inp eip (i + k) ≠ SlotVerdict.raises) →
      identifyLoop inp eip n i = IdentExit.exhausted ∨
        ∃ j offset modName, identifyLoop inp eip n i = IdentExit.found j offset modName := by
  intro n
  induction n with
  | zero => intro i _; exact Or.inl rfl
  | succ n ih =>
    intro i hret
    rw [identifyLoop_succ]
    have h0 := hret 0 (by omega)
    simp only [Nat.add_zero] at h0
    cases hv : slotVerdict inp eip i with
    | raises => exact absurd hv h0
    | reports offset modName => exact Or.inr ⟨i, offset, modName, rfl⟩
    | skips =>
      exact ih (i + 1) (fun k hk => by
        have := hret (k + 1) (by omega)
        rwa [show i + (k + 1) = i + 1 + k by omega] at this)

/-! ## Lemmas on counting lines -/

theorem filter_length_eq_zero (f : Line → Bool) (log : List Line)
    (h : ∀ l ∈ log, f l = false) : (log.filter f).length = 0 := by
  induction log with
  | nil => rfl
  | cons a rest ih =>
    have ha := h a (by simp)
    have hrest := ih (fun l hl => h l (by simp [hl]))
    simp [List.filter_cons, ha, hrest]

theorem eipLine_kind (g_labels : List CrashLogLabel) (eip : Nat) :
    (eipLine g_labels eip).isCrashedAt = false ∧
      (eipLine g_labels eip).isUnableToIdentify = false ∧
      (eipLine g_labels eip).isModuleLine = false := by
  unfold eipLine
  cases GetLabel g_labels eip with
  | none => simp [Line.isCrashedAt, Line.isUnableToIdentify, Line.isModuleLine]
  | some label =>
    by_cases h : label.type = LabelType.subroutine <;>
      simp [h, Line.isCrashedAt, Line.isUnableToIdentify, Line.isModuleLine]

theorem printStack_kind (g_labels : List CrashLogLabel) (stack : Nat → Nat) :
    ∀ l ∈ printStack g_labels stack 0,
      l.isCrashedAt = false ∧ l.isUnableToIdentify = false ∧ l.isModuleLine = false := by
  intro l hl
  rw [printStack_zero] at hl
  obtain ⟨k, _, rfl⟩ := List.mem_map.1 hl
  have := stackLine_kind g_labels (stack k)
  exact ⟨this.1, this.2.1, this.2.2.1⟩

theorem registersAndStack_counts (g_labels : List CrashLogLabel) (inp : CrashInput) :
    countCrashedAt (registersAndStack g_labels inp) = 0 ∧
      countUnableToIdentify (registersAndStack g_labels inp) = 0 ∧
      countModuleLines (registersAndStack g_labels inp) = 0 := by
  have he := eipLine_kind g_labels inp.ContextRecord.Eip
  have hs := printStack_kind g_labels inp.stack
  have h1 := filter_length_eq_zero Line.isCrashedAt _ (fun l hl => (hs l hl).1)
  have h2 := filter_length_eq_zero Line.isUnableToIdentify _ (fun l hl => (hs l hl).2.1)
  have h3 := filter_length_eq_zero Line.isModuleLine _ (fun l hl => (hs l hl).2.2)
  simp only [countCrashedAt, countUnableToIdentify, countModuleLines, registersAndStack,
    List.filter_append, List.length_append, h1, h2, h3]
  simp [List.filter_cons, he.1, he.2.1, he.2.2, Line.isCrashedAt, Line.isUnableToIdentify,
    Line.isModuleLine]
  exact he

/-- Every line the listing loop prints is a module line. -/
theorem listLoop_lines (inp : CrashInput) :
    ∀ n i, ∀ l ∈ (listLoop inp n i).1, l.isModuleLine = true := by
  intro n
  induction n with
  | zero => intro i l hl; simp [listLoop] at hl
  | succ n ih =>
    intro i l hl
    rw [listLoop] at hl
    cases hn : inp.listFileName i with
    | raised => simp [hn] at hl
    | failed => simp only [hn] at hl; exact ih (i + 1) l hl
    | ok name =>
      simp only [hn] at hl
      cases hi : inp.listInformation i with
      | raised => simp [hi] at hl
      | failed =>
        simp only [hi, List.mem_cons] at hl
        rcases hl with rfl | hl
        · rfl
        · exact ih (i + 1) l hl
      | ok info =>
        simp only [hi, List.mem_cons] at hl
        rcases hl with rfl | hl
        · rfl
        · exact ih (i + 1) l hl

theorem isModuleLine_kind (l : Line) (h : l.isModuleLine = true) :
    l.isCrashedAt = false ∧ l.isUnableToIdentify = false ∧ l ≠ Line.tooMany ∧
      l ≠ Line.endOfList ∧ l ≠ Line.failedToPrint ∧ l ≠ Line.allDataPrinted := by
  cases l <;> simp [Line.isModuleLine] at h <;>
    simp [Line.isCrashedAt, Line.isUnableToIdentify]

theorem listModules_counts (inp : CrashInput) (count : Nat) (overflow : Bool) :
    countCrashedAt (listModules inp count overflow) = 0 ∧
      countUnableToIdentify (listModules inp count overflow) = 0 ∧
      countModuleLines (listModules inp count overflow) =
        ((listLoop inp count 0).1).length := by
  have hl := listLoop_lines inp count 0
  have h1 := filter_length_eq_zero Line.isCrashedAt _
    (fun l h => (isModuleLine_kind l (hl l h)).1)
  have h2 := filter_length_eq_zero Line.isUnableToIdentify _
    (fun l h => (isModuleLine_kind l (hl l h)).2.1)
  have h3 : ((listLoop inp count 0).1.filter Line.isModuleLine).length =
      ((listLoop inp count 0).1).length := by
    rw [List.filter_eq_self.2 hl]
  unfold listModules
  simp only [countCrashedAt, countUnableToIdentify, countModuleLines]
  cases (listLoop inp count 0).2 <;> cases overflow <;>
    simp [List.filter_append, h1, h2, h3, List.filter_cons, Line.isCrashedAt,
      Line.isUnableToIdentify, Line.isModuleLine]

/-! ## Lemmas on the listing loop -/

theorem listLoop_length_le (inp : CrashInput) :
    ∀ n i, ((listLoop inp n i).1).length ≤ n := by
  intro n
  induction n with
  | zero => intro i; simp [listLoop]
  | succ n ih =>
    intro i
    have := ih (i + 1)
    rw [listLoop]
    cases inp.listFileName i with
    | raised => simp
    | failed => simp only; omega
    | ok name =>
      cases inp.listInformation i with
      | raised => simp
      | failed => simp only [List.length_cons]; omega
      | ok info => simp only [List.length_cons]; omega

/-- When no pass raises, the loop completes and prints one line for each slot
whose file-name query succeeds. -/
theorem listLoop_complete (inp : CrashInput) :
    ∀ n i, (∀ k, k < n → listRaisesAt inp (i + k) = false) →
      (listLoop inp n i).2 = false ∧
        ((listLoop inp n i).1).length =
          ((List.range' i n).filter (fun k => (inp.listFileName k).isOk)).length := by
  intro n
  induction n with
  | zero => intro i _; simp [listLoop]
  | succ n ih =>
    intro i hno
    have h0 := hno 0 (by omega)
    simp only [Nat.add_zero] at h0
    have hrest := ih (i + 1) (fun k hk => by
      have := hno (k + 1) (by omega)
      rwa [show i + (k + 1) = i + 1 + k by omega] at this)
    rw [listLoop]
    unfold listRaisesAt at h0
    cases hn : inp.listFileName i with
    | raised => simp [hn] at h0
    | failed =>
      simp only [List.range', List.filter_cons, hn, Outcome.isOk]
      simpa using hrest
    | ok name =>
      simp only [hn] at h0
      cases hi : inp.listInformation i with
      | raised => simp [hi, Outcome.isRaised] at h0
      | failed =>
        simp only [List.range', List.filter_cons, hn, Outcome.isOk]
        simpa using hrest
      | ok info =>
        simp only [List.range', List.filter_cons, hn, Outcome.isOk]
        simpa using hrest

/-- With no raise and every file-name query succeeding, the loop prints one
line per slot. -/
theorem listLoop_full (inp : CrashInput) (n : Nat)
    (h : ∀ k, k < n → (inp.listFileName k).isOk = true ∧ listRaisesAt inp k = false) :
    (listLoop inp n 0).2 = false ∧ ((listLoop inp n 0).1).length = n := by
  have hc := listLoop_complete inp n 0 (fun k hk => by rw [Nat.zero_add]; exact (h k hk).2)
  refine ⟨hc.1, ?_⟩
  rw [hc.2, List.filter_eq_self.2, List.length_range']
  intro k hk
  rw [List.mem_range'_1] at hk
  exact (h k (by omega)).1

theorem tooMany_mem_listModules (inp : CrashInput) (count : Nat) (overflow : Bool) :
    Line.tooMany ∈ listModules inp count overflow ↔
      (listLoop inp count 0).2 = false ∧ overflow = true := by
  have hl := listLoop_lines inp count 0
  have hnot : Line.tooMany ∉ (listLoop inp count 0).1 := fun hmem =>
    (isModuleLine_kind _ (hl _ hmem)).2.2.1 rfl
  unfold listModules
  cases hr : (listLoop inp count 0).2 <;> cases overflow <;> simp [hr, hnot]

/-- The report when enumeration succeeds and the identification step
completes. -/
theorem logCrash_of_ident (g_labels : List CrashLogLabel) (inp : CrashInput)
    (bytesNeeded : Nat) (henum : inp.EnumProcessModules = Outcome.ok bytesNeeded)
    (hident : (identifyModule inp inp.ContextRecord.Eip (moduleCount bytesNeeded)).2 = false) :
    _logCrash g_labels inp =
      (registersAndStack g_labels inp ++
        (Line.blank :: (identifyModule inp inp.ContextRecord.Eip (moduleCount bytesNeeded)).1
          ++ [Line.listingHeader]
          ++ listModules inp (moduleCount bytesNeeded) (overflowFlag bytesNeeded)
          ++ [Line.allDataPrinted]), false) := by
  simp [_logCrash, moduleDebug, henum, hident]

theorem report_counts (g_labels : List CrashLogLabel) (inp : CrashInput)
    (bytesNeeded : Nat) (henum : inp.EnumProcessModules = Outcome.ok bytesNeeded)
    (hident : (identifyModule inp inp.ContextRecord.Eip (moduleCount bytesNeeded)).2 = false) :
    countCrashedAt (_logCrash g_labels inp).1 =
        countCrashedAt (identifyModule inp inp.ContextRecord.Eip (moduleCount bytesNeeded)).1 ∧
      countUnableToIdentify (_logCrash g_labels inp).1 =
        countUnableToIdentify
          (identifyModule inp inp.ContextRecord.Eip (moduleCount bytesNeeded)).1 := by
  rw [logCrash_of_ident g_labels inp bytesNeeded henum hident]
  have hr := registersAndStack_counts g_labels inp
  have hl := listModules_counts inp (moduleCount bytesNeeded) (overflowFlag bytesNeeded)
  simp only [countCrashedAt, countUnableToIdentify] at hr hl ⊢
  simp [List.filter_append, List.filter_cons, hr.1, hr.2.1, hl.1, hl.2.1, Line.isCrashedAt,
    Line.isUnableToIdentify]

theorem report_moduleLines (g_labels : List CrashLogLabel) (inp : CrashInput)
    (bytesNeeded : Nat) (henum : inp.EnumProcessModules = Outcome.ok bytesNeeded)
    (hret : ∀ i, i < moduleCount bytesNeeded → identReturns inp i) :
    countModuleLines (_logCrash g_labels inp).1 =
      ((listLoop inp (moduleCount bytesNeeded) 0).1).length := by
  have hloop := identifyLoop_returns inp inp.ContextRecord.Eip (moduleCount bytesNeeded) 0
    (fun k hk => by
      rw [Nat.zero_add]
      exact slotVerdict_ne_raises inp _ k (hret k hk))
  have hr := registersAndStack_counts g_labels inp
  have hl := listModules_counts inp (moduleCount bytesNeeded) (overflowFlag bytesNeeded)
  simp only [countModuleLines] at hr hl ⊢
  rcases hloop with hex | ⟨j, offset, modName, hfound⟩
  · have hm : identifyModule inp inp.ContextRecord.Eip (moduleCount bytesNeeded) =
        ([Line.unableToIdentify, Line.unableNote, Line.blank], false) := by
      simp [identifyModule, hex]
    rw [logCrash_of_ident g_labels inp bytesNeeded henum (by rw [hm]), hm]
    simp [List.filter_append, List.filter_cons, hr.2.2, hl.2.2, Line.isModuleLine]
  · have hm : identifyModule inp inp.ContextRecord.Eip (moduleCount bytesNeeded) =
        ([Line.crashedAt offset modName, Line.crashedNote, Line.blank], false) := by
      simp [identifyModule, hfound]
    rw [logCrash_of_ident g_labels inp bytesNeeded henum (by rw [hm]), hm]
    simp [List.filter_append, List.filter_cons, hr.2.2, hl.2.2, Line.isModuleLine]

theorem identifyModule_found (inp : CrashInput) (eip count i offset : Nat) (modName : String)
    (h : identifyLoop inp eip count 0 = IdentExit.found i offset modName) :
    identifyModule inp eip count =
      ([Line.crashedAt offset modName, Line.crashedNote, Line.blank], false) := by
  simp [identifyModule, h]

theorem identifyModule_exhausted (inp : CrashInput) (eip count : Nat)
    (h : identifyLoop inp eip count 0 = IdentExit.exhausted) :
    identifyModule inp eip count =
      ([Line.unableToIdentify, Line.unableNote, Line.blank], false) := by
  simp [identifyModule, h]

/-- The three ways the faulting-module step can end. -/
theorem identifyModule_cases (inp : CrashInput) (eip count : Nat) :
    (∃ offset modName, identifyModule inp eip count =
        ([Line.crashedAt offset modName, Line.crashedNote, Line.blank], false)) ∨
      identifyModule inp eip count =
        ([Line.unableToIdentify, Line.unableNote, Line.blank], false) ∨
      identifyModule inp eip count = ([], true) := by
  unfold identifyModule
  cases identifyLoop inp eip count 0 with
  | found i offset modName => exact Or.inl ⟨offset, modName, rfl⟩
  | exhausted => exact Or.inr (Or.inl rfl)
  | raised => exact Or.inr (Or.inr rfl)

/-- Identifications and "unable to identify" messages of the report all come
from the module block. -/
theorem report_counts_block (g_labels : List CrashLogLabel) (inp : CrashInput) :
    countCrashedAt (_logCrash g_labels inp).1 =
        countCrashedAt (moduleDebug inp inp.ContextRecord.Eip).1 ∧
      countUnableToIdentify (_logCrash g_labels inp).1 =
        countUnableToIdentify (moduleDebug inp inp.ContextRecord.Eip).1 := by
  have hr := registersAndStack_counts g_labels inp
  simp only [countCrashedAt, countUnableToIdentify] at hr ⊢
  simp [_logCrash, List.filter_append, hr.1, hr.2.1]

theorem tooMany_not_mem_registersAndStack (g_labels : List CrashLogLabel) (inp : CrashInput) :
    Line.tooMany ∉ registersAndStack g_labels inp := by
  have he : eipLine g_labels inp.ContextRecord.Eip ≠ Line.tooMany := by
    unfold eipLine
    cases GetLabel g_labels inp.ContextRecord.Eip with
    | none => simp
    | some label => by_cases h : label.type = LabelType.subroutine <;> simp [h]
  have hs : Line.tooMany ∉ printStack g_labels inp.stack 0 := by
    intro hmem
    rw [printStack_zero] at hmem
    obtain ⟨k, _, hk⟩ := List.mem_map.1 hmem
    unfold stackLine at hk
    cases hg : GetLabel g_labels (inp.stack k) with
    | none => simp [hg] at hk
    | some label =>
      by_cases h : label.type = LabelType.vtbl <;> simp [hg, h] at hk
  simp only [registersAndStack, List.mem_append, List.mem_cons, List.mem_singleton, not_or]
  refine ⟨⟨by simp, fun h => he h.symm, by simp, by simp, by simp, by simp, by simp, by simp,
    by simp, by simp, by simp, by simp⟩, hs⟩

/-- The overflow note is in the report exactly when the faulting-module step
completes and the listing prints the note. -/
theorem tooMany_mem_report (g_labels : List CrashLogLabel) (inp : CrashInput)
    (bytesNeeded : Nat) (henum : inp.EnumProcessModules = Outcome.ok bytesNeeded) :
    Line.tooMany ∈ (_logCrash g_labels inp).1 ↔
      (identifyModule inp inp.ContextRecord.Eip (moduleCount bytesNeeded)).2 = false ∧
        Line.tooMany ∈ listModules inp (moduleCount bytesNeeded) (overflowFlag bytesNeeded) := by
  have hregs := tooMany_not_mem_registersAndStack g_labels inp
  rcases identifyModule_cases inp inp.ContextRecord.Eip (moduleCount bytesNeeded) with
    ⟨offset, modName, h⟩ | h | h
  · simp [_logCrash, moduleDebug, henum, h, hregs]
  · simp [_logCrash, moduleDebug, henum, h, hregs]
  · simp [_logCrash, moduleDebug, henum, h, hregs]

/-- Module lines of the report: none when the faulting-module step is left by
an exception, those of the listing loop otherwise. -/
theorem report_moduleLines_of_enum (g_labels : List CrashLogLabel) (inp : CrashInput)
    (bytesNeeded : Nat) (henum : inp.EnumProcessModules = Outcome.ok bytesNeeded) :
    countModuleLines (_logCrash g_labels inp).1 =
      if (identifyModule inp inp.ContextRecord.Eip (moduleCount bytesNeeded)).2 then 0
      else ((listLoop inp (moduleCount bytesNeeded) 0).1).length := by
  have hr := registersAndStack_counts g_labels inp
  have hl := listModules_counts inp (moduleCount bytesNeeded) (overflowFlag bytesNeeded)
  simp only [countModuleLines] at hr hl ⊢
  rcases identifyModule_cases inp inp.ContextRecord.Eip (moduleCount bytesNeeded) with
    ⟨offset, modName, h⟩ | h | h
  · simp [_logCrash, moduleDebug, henum, h, List.filter_append, List.filter_cons, hr.2.2,
      hl.2.2, Line.isModuleLine]
  · simp [_logCrash, moduleDebug, henum, h, List.filter_append, List.filter_cons, hr.2.2,
      hl.2.2, Line.isModuleLine]
  · simp [_logCrash, moduleDebug, henum, h, List.filter_append, List.filter_cons, hr.2.2,
      Line.isModuleLine]

/-- When the queries of the identification loop return, no exception leaves
the faulting-module step. -/
theorem identifyModule_completes (inp : CrashInput) (eip count : Nat)
    (hret : ∀ i, i < count → identReturns inp i) :
    (identifyModule inp eip count).2 = false := by
  have hloop := identifyLoop_returns inp eip count 0
    (fun k hk => by
      rw [Nat.zero_add]
      exact slotVerdict_ne_raises inp _ k (hret k hk))
  rcases hloop with hex | ⟨j, offset, modName, hfound⟩
  · rw [identifyModule_exhausted inp _ _ hex]
  · rw [identifyModule_found inp _ _ j offset modName hfound]

/-! ## C1, C2: label lookup -/

/-- C1: for every label table whose entries end inside the 32-bit address
space (`start + size < 2^32`) and every address: if the entry at some index
`k` satisfies `start ≤ addr ≤ start + size`, `GetLabel` returns a table entry
whose range holds `addr`, and that very entry when no earlier entry holds
`addr`; if `addr` lies outside the range of every entry, `GetLabel` returns
`nullptr`. -/
theorem C1_GetLabel_lookup (g_labels : List CrashLogLabel) (addr : Nat)
    (hfit : ∀ e ∈ g_labels, e.start + e.size < wordModulus) :
    (∀ k e, g_labels[k]? = some e → inIdealRange e addr →
      ∃ r, GetLabel g_labels addr = some r ∧ r ∈ g_labels ∧ inIdealRange r addr ∧
        ((∀ j, j < k → ∀ e', g_labels[j]? = some e' → ¬ inIdealRange e' addr) →
          GetLabelIndex g_labels addr = some k ∧ r = e)) ∧
    ((∀ e ∈ g_labels, ¬ inIdealRange e addr) → GetLabel g_labels addr = none) := by
  have hiff : ∀ e ∈ g_labels, (inRange e addr ↔ inIdealRange e addr) :=
    fun e he => inRange_iff_ideal e addr (hfit e he)
  refine ⟨?_, ?_⟩
  · intro k e hk hin
    have hmem := List.getElem?_mem hk
    obtain ⟨i, r, hidx, hget, hres, hrin, hmin⟩ :=
      GetLabel_first_match g_labels addr ⟨e, hmem, (hiff e hmem).2 hin⟩
    have hrmem := List.getElem?_mem hget
    refine ⟨r, hres, hrmem, (hiff r hrmem).1 hrin, ?_⟩
    intro hearlier
    have hle : i ≤ k := by
      by_contra hlt
      exact hmin k (by omega) e hk ((hiff e hmem).2 hin)
    have hge : k ≤ i := by
      by_contra hlt
      exact hearlier i (by omega) r hget ((hiff r hrmem).1 hrin)
    have hik : i = k := by omega
    subst hik
    refine ⟨hidx, ?_⟩
    rw [hget] at hk
    exact Option.some.inj hk
  · intro hout
    exact GetLabel_none_of_outside g_labels addr
      (fun e he hin => hout e he ((hiff e he).1 hin))

/-- C1 at `sampleLabels`: `0x401030` lies in entries 0 and 1 and entry 0 is
returned; `0x10` lies in no entry and the lookup gives `nullptr`. -/
theorem C1_GetLabel_lookup_witness :
    (∀ e ∈ sampleLabels, e.start + e.size < wordModulus) ∧
    (∃ r, GetLabel sampleLabels 0x401030 = some r ∧ r ∈ sampleLabels ∧
        inIdealRange r 0x401030 ∧
        ((∀ j, j < 0 → ∀ e', sampleLabels[j]? = some e' → ¬ inIdealRange e' 0x401030) →
          GetLabelIndex sampleLabels 0x401030 = some 0 ∧
            r = { start := 0x401000, size := 0x40, name := "TESForm::Load",
                  type := LabelType.subroutine })) ∧
      GetLabel sampleLabels 0x10 = none :=
  ⟨by decide,
   (C1_GetLabel_lookup sampleLabels 0x401030 (by decide)).1 0 _ rfl (by decide),
   (C1_GetLabel_lookup sampleLabels 0x10 (by decide)).2 (by decide)⟩

/-- C2: for every label table whose entries end inside the 32-bit address
space and every address, when one or several entries have ranges
`start ≤ addr ≤ start + size` holding the address, `GetLabel` returns the one
with the smallest table index: the returned entry holds the address, no entry
at an earlier index does, and every entry that holds the address sits at that
index or later. -/
theorem C2_GetLabel_first_wins (g_labels : List CrashLogLabel) (addr : Nat)
    (hfit : ∀ e ∈ g_labels, e.start + e.size < wordModulus)
    (h : ∃ e ∈ g_labels, inIdealRange e addr) :
    ∃ i e, GetLabelIndex g_labels addr = some i ∧ g_labels[i]? = some e ∧
      GetLabel g_labels addr = some e ∧ inIdealRange e addr ∧
      (∀ j, j < i → ∀ e', g_labels[j]? = some e' → ¬ inIdealRange e' addr) ∧
      (∀ k e', g_labels[k]? = some e' → inIdealRange e' addr → i ≤ k) := by
  have hiff : ∀ e ∈ g_labels, (inRange e addr ↔ inIdealRange e addr) :=
    fun e he => inRange_iff_ideal e addr (hfit e he)
  obtain ⟨e0, hmem0, hin0⟩ := h
  obtain ⟨i, e, hidx, hget, hres, hin, hmin⟩ :=
    GetLabel_first_match g_labels addr ⟨e0, hmem0, (hiff e0 hmem0).2 hin0⟩
  have hearly : ∀ j, j < i → ∀ e', g_labels[j]? = some e' → ¬ inIdealRange e' addr :=
    fun j hj e' he' hin' => hmin j hj e' he' ((hiff e' (List.getElem?_mem he')).2 hin')
  refine ⟨i, e, hidx, hget, hres, (hiff e (List.getElem?_mem hget)).1 hin, hearly, ?_⟩
  intro k e' hk hin'
  by_contra hlt
  exact hearly k (by omega) e' hk hin'

/-- C2 at `sampleLabels`, where entries 0 and 1 overlap at `0x401030` and the
wider entry 1 comes second. -/
theorem C2_GetLabel_first_wins_witness :
    (∀ e ∈ sampleLabels, e.start + e.size < wordModulus) ∧
    (∃ e ∈ sampleLabels, inIdealRange e 0x401030) ∧
    ∃ i e, GetLabelIndex sampleLabels 0x401030 = some i ∧ sampleLabels[i]? = some e ∧
      GetLabel sampleLabels 0x401030 = some e ∧ inIdealRange e 0x401030 ∧
      (∀ j, j < i → ∀ e', sampleLabels[j]? = some e' → ¬ inIdealRange e' 0x401030) ∧
      (∀ k e', sampleLabels[k]? = some e' → inIdealRange e' 0x401030 → i ≤ k) :=
  ⟨by decide, by decide,
    C2_GetLabel_first_wins sampleLabels 0x401030 (by decide) (by decide)⟩

/-! ## C3, C4: the filter -/

/-- The state after one invocation: a first invocation sets `caught` and
appends the report to the log; a repeat changes nothing. -/
theorem filter_state (g_labels : List CrashLogLabel) (p : Process) (info : CrashInput)
    (previousReturn : Int) :
    (_filter g_labels p info previousReturn).state =
      if p.caught then p
      else { p with caught := true, log := p.log ++ (_logCrash g_labels info).1 } := by
  unfold _filter
  cases hc : p.caught <;> simp [hc]

theorem filter_events (g_labels : List CrashLogLabel) (p : Process) (info : CrashInput)
    (previousReturn : Int) :
    (_filter g_labels p info previousReturn).events =
      (if p.caught then [] else [Event.logCrash (_logCrash g_labels info).2])
        ++ chainEvents p.s_originalFilter previousReturn := by
  unfold _filter
  cases hc : p.caught <;> simp [hc]

/-- Invocations that start with `caught = true` only chain: no report is made
and the state, the log included, stays as it is. -/
theorem runFilter_caught (g_labels : List CrashLogLabel) (p : Process)
    (hp : p.caught = true) (crashes : List (CrashInput × Int)) :
    (runFilter g_labels p crashes).map (fun r => r.events) =
        crashes.map (fun c => chainEvents p.s_originalFilter c.2) ∧
      ∀ r ∈ runFilter g_labels p crashes, r.state = p := by
  induction crashes with
  | nil => simp [runFilter]
  | cons c rest ih =>
    obtain ⟨info, previousReturn⟩ := c
    have hs : (_filter g_labels p info previousReturn).state = p := by
      rw [filter_state, hp]; simp
    have he := filter_events g_labels p info previousReturn
    simp only [runFilter, List.map_cons, List.mem_cons]
    rw [hs]
    refine ⟨?_, ?_⟩
    · rw [ih.1, he, hp]; simp
    · rintro r (rfl | hr)
      · exact hs
      · exact ih.2 r hr

theorem countLogCrash_chainEvents (f : Option FilterRef) (previousReturn : Int) :
    countLogCrash (chainEvents f previousReturn) = 0 ∧
      countChain (chainEvents f previousReturn) = if f.isSome then 1 else 0 := by
  cases f <;> simp [chainEvents, countLogCrash, countChain]

theorem countLogCrash_first (f : Option FilterRef) (raised : Bool) (previousReturn : Int) :
    countLogCrash (Event.logCrash raised :: chainEvents f previousReturn) = 1 ∧
      countChain (Event.logCrash raised :: chainEvents f previousReturn) =
        if f.isSome then 1 else 0 := by
  cases f <;> simp [chainEvents, countLogCrash, countChain]

/-- C3: over invocations `first :: rest` of the filter starting with
`caught = false`, `_logCrash` is run exactly once, by the first invocation
(whether or not it throws), and its report, which is not empty, is appended to
the log by that invocation and by no other: after every invocation the state
is the entry state with `caught` true and the log extended by the report of
the first crash, nothing else changed. Every invocation calls the previous
filter exactly once when `s_originalFilter` is set and not at all when it is
not. -/
theorem C3_filter_fires_once (g_labels : List CrashLogLabel) (p : Process)
    (hp : p.caught = false) (first : CrashInput × Int) (rest : List (CrashInput × Int)) :
    (runFilter g_labels p (first :: rest)).map (fun r => r.events) =
        (Event.logCrash (_logCrash g_labels first.1).2
            :: chainEvents p.s_originalFilter first.2)
          :: rest.map (fun c => chainEvents p.s_originalFilter c.2) ∧
      (∀ r ∈ runFilter g_labels p (first :: rest), r.state.caught = true) ∧
      ((runFilter g_labels p (first :: rest)).map (fun r => countLogCrash r.events)
        = 1 :: List.replicate rest.length 0) ∧
      (∀ r ∈ runFilter g_labels p (first :: rest),
        countChain r.events = if p.s_originalFilter.isSome then 1 else 0) ∧
      (∀ r ∈ runFilter g_labels p (first :: rest),
        r.state = { p with caught := true,
                           log := p.log ++ (_logCrash g_labels first.1).1 }) ∧
      ((runFilter g_labels p (first :: rest)).map (fun r => r.state.log)
        = List.replicate (rest.length + 1) (p.log ++ (_logCrash g_labels first.1).1)) ∧
      (_logCrash g_labels first.1).1.head? = some Line.header ∧
      (runFilter g_labels p (first :: rest)).length = rest.length + 1 := by
  obtain ⟨info, previousReturn⟩ := first
  have hs : (_filter g_labels p info previousReturn).state =
      { p with caught := true, log := p.log ++ (_logCrash g_labels info).1 } := by
    rw [filter_state, hp]; simp
  have he := filter_events g_labels p info previousReturn
  have hrest := runFilter_caught g_labels (_filter g_labels p info previousReturn).state
    (by rw [hs]) rest
  have horig : (_filter g_labels p info previousReturn).state.s_originalFilter =
      p.s_originalFilter := by rw [hs]
  rw [horig] at hrest
  have hevents : (runFilter g_labels p ((info, previousReturn) :: rest)).map (fun r => r.events) =
        (Event.logCrash (_logCrash g_labels info).2
            :: chainEvents p.s_originalFilter previousReturn)
          :: rest.map (fun c => chainEvents p.s_originalFilter c.2) := by
    simp only [runFilter, List.map_cons]
    rw [hrest.1, he, hp]; simp
  have hstate : ∀ r ∈ runFilter g_labels p ((info, previousReturn) :: rest),
      r.state = { p with caught := true, log := p.log ++ (_logCrash g_labels info).1 } := by
    simp only [runFilter, List.mem_cons]
    rintro r (rfl | hr)
    · exact hs
    · rw [hrest.2 r hr, hs]
  have hlen : ∀ (q : Process) (cs : List (CrashInput × Int)),
      (runFilter g_labels q cs).length = cs.length := by
    intro q cs
    induction cs generalizing q with
    | nil => rfl
    | cons c cs ih => simp [runFilter, ih]
  refine ⟨hevents, ?_, ?_, ?_, hstate, ?_, ?_, ?_⟩
  · intro r hr; rw [hstate r hr]
  · have : (runFilter g_labels p ((info, previousReturn) :: rest)).map
        (fun r => countLogCrash r.events) =
        ((runFilter g_labels p ((info, previousReturn) :: rest)).map (fun r => r.events)).map
          countLogCrash := by simp [List.map_map, Function.comp_def]
    rw [this, hevents]
    simp only [List.map_cons, List.map_map]
    rw [(countLogCrash_first p.s_originalFilter _ previousReturn).1]
    congr 1
    apply List.ext_getElem
    · simp
    · intro n h1 h2
      simp [(countLogCrash_chainEvents p.s_originalFilter _).1]
  · intro r hr
    have hmem : r.events ∈ (runFilter g_labels p ((info, previousReturn) :: rest)).map
        (fun r => r.events) := List.mem_map_of_mem _ hr
    rw [hevents] at hmem
    rcases List.mem_cons.1 hmem with h | h
    · rw [h]; exact (countLogCrash_first p.s_originalFilter _ previousReturn).2
    · obtain ⟨c, _, hc⟩ := List.mem_map.1 h
      rw [← hc]; exact (countLogCrash_chainEvents p.s_originalFilter c.2).2
  · apply List.ext_getElem
    · simp [hlen]
    · intro n h1 h2
      simp only [List.getElem_map, List.getElem_replicate]
      rw [hstate _ (List.getElem_mem _)]
  · simp [_logCrash, registersAndStack]
  · simp [hlen]

/-- C3 at three crashes delivered to a process whose previous filter is set;
the first report throws. The log, empty before, holds the report of the first
crash after each of the three invocations. -/
theorem C3_filter_fires_once_witness :
    installedProcess.caught = false ∧
    ((runFilter sampleLabels installedProcess
        ((throwingCrash, 0) :: [(sampleCrash, 1), (sampleCrash, 0)])).map (fun r => r.events) =
        [[Event.logCrash true, Event.chain (FilterRef.foreign 7) 0],
          [Event.chain (FilterRef.foreign 7) 1], [Event.chain (FilterRef.foreign 7) 0]] ∧
      (∀ r ∈ runFilter sampleLabels installedProcess
          ((throwingCrash, 0) :: [(sampleCrash, 1), (sampleCrash, 0)]),
        r.state.caught = true) ∧
      ((runFilter sampleLabels installedProcess
          ((throwingCrash, 0) :: [(sampleCrash, 1), (sampleCrash, 0)])).map
          (fun r => countLogCrash r.events) = [1, 0, 0]) ∧
      (∀ r ∈ runFilter sampleLabels installedProcess
          ((throwingCrash, 0) :: [(sampleCrash, 1), (sampleCrash, 0)]),
        countChain r.events = 1) ∧
      (∀ r ∈ runFilter sampleLabels installedProcess
          ((throwingCrash, 0) :: [(sampleCrash, 1), (sampleCrash, 0)]),
        r.state = { caught := true, s_originalFilter := some (FilterRef.foreign 7),
                    registered := some FilterRef.ours,
                    log := [] ++ (_logCrash sampleLabels throwingCrash).1 }) ∧
      ((runFilter sampleLabels installedProcess
          ((throwingCrash, 0) :: [(sampleCrash, 1), (sampleCrash, 0)])).map
          (fun r => r.state.log)
        = List.replicate 3 ([] ++ (_logCrash sampleLabels throwingCrash).1)) ∧
      (_logCrash sampleLabels throwingCrash).1.head? = some Line.header ∧
      (runFilter sampleLabels installedProcess
          ((throwingCrash, 0) :: [(sampleCrash, 1), (sampleCrash, 0)])).length = 3) :=
  ⟨rfl, C3_filter_fires_once sampleLabels installedProcess rfl (throwingCrash, 0)
    [(sampleCrash, 1), (sampleCrash, 0)]⟩

/-- C4: the filter returns `EXCEPTION_CONTINUE_SEARCH` exactly when `caught`
was false on entry and `EXCEPTION_EXECUTE_HANDLER` exactly when it was true;
two invocations that agree on `caught` return the same disposition whatever
the label table, the previous filter, its return value, the rest of the
process state and the crash (so also whether the report throws). -/
theorem C4_filter_disposition (g_labels : List CrashLogLabel) (p : Process)
    (info : CrashInput) (previousReturn : Int) :
    ((_filter g_labels p info previousReturn).disposition = EXCEPTION_CONTINUE_SEARCH
        ↔ p.caught = false) ∧
      ((_filter g_labels p info previousReturn).disposition = EXCEPTION_EXECUTE_HANDLER
        ↔ p.caught = true) ∧
      EXCEPTION_CONTINUE_SEARCH ≠ EXCEPTION_EXECUTE_HANDLER ∧
      ∀ (g_labels' : List CrashLogLabel) (orig registered : Option FilterRef)
        (log : List Line) (info' : CrashInput) (previousReturn' : Int),
        (_filter g_labels'
            { caught := p.caught, s_originalFilter := orig, registered := registered,
              log := log } info' previousReturn').disposition
          = (_filter g_labels p info previousReturn).disposition := by
  unfold _filter
  cases hc : p.caught <;>
    simp [hc, EXCEPTION_CONTINUE_SEARCH, EXCEPTION_EXECUTE_HANDLER]

/-! ## C5, C6: the faulting module -/

/-- C5, as stated, fails: in `throwingCrash` the enumeration succeeds and the
file-name query of the identification loop raises at the module that holds
the instruction pointer; the exception leaves `_logCrash` and the report has
neither the identification nor the "unable to identify" message. -/
theorem C5_counterexample :
    ¬ ∀ (g_labels : List CrashLogLabel) (inp : CrashInput) (bytesNeeded : Nat),
        inp.EnumProcessModules = Outcome.ok bytesNeeded →
        ((countCrashedAt (_logCrash g_labels inp).1 = 1 ∧
            countUnableToIdentify (_logCrash g_labels inp).1 = 0) ∨
          (countCrashedAt (_logCrash g_labels inp).1 = 0 ∧
            countUnableToIdentify (_logCrash g_labels inp).1 = 1)) := by
  intro h
  have hclaim := h sampleLabels throwingCrash 12 rfl
  have hc := report_counts_block sampleLabels throwingCrash
  have h1 : countCrashedAt (moduleDebug throwingCrash throwingCrash.ContextRecord.Eip).1 = 0 := by
    decide
  have h2 : countUnableToIdentify
      (moduleDebug throwingCrash throwingCrash.ContextRecord.Eip).1 = 0 := by
    decide
  rw [hc.1, hc.2, h1, h2] at hclaim
  omega

/-- C5, amended: when `EnumProcessModules` succeeds and the per-module queries
of the identification loop return (each succeeding or failing, none raising),
the faulting-module step prints either the identification (lines 86-87) or the
"unable to identify" message (lines 96-97), and the whole report holds exactly
one `crashedAt` line and no `unableToIdentify` line, or no `crashedAt` line
and exactly one `unableToIdentify` line. -/
theorem C5_exactly_one_outcome (g_labels : List CrashLogLabel) (inp : CrashInput)
    (bytesNeeded : Nat) (henum : inp.EnumProcessModules = Outcome.ok bytesNeeded)
    (hret : ∀ i, i < moduleCount bytesNeeded → identReturns inp i) :
    ((∃ offset modName,
        identifyModule inp inp.ContextRecord.Eip (moduleCount bytesNeeded) =
          ([Line.crashedAt offset modName, Line.crashedNote, Line.blank], false)) ∨
      identifyModule inp inp.ContextRecord.Eip (moduleCount bytesNeeded) =
        ([Line.unableToIdentify, Line.unableNote, Line.blank], false)) ∧
    ((countCrashedAt (_logCrash g_labels inp).1 = 1 ∧
        countUnableToIdentify (_logCrash g_labels inp).1 = 0) ∨
      (countCrashedAt (_logCrash g_labels inp).1 = 0 ∧
        countUnableToIdentify (_logCrash g_labels inp).1 = 1)) := by
  have hloop := identifyLoop_returns inp inp.ContextRecord.Eip (moduleCount bytesNeeded) 0
    (fun k hk => by
      rw [Nat.zero_add]
      exact slotVerdict_ne_raises inp _ k (hret k hk))
  rcases hloop with hex | ⟨j, offset, modName, hfound⟩
  · have hm := identifyModule_exhausted inp _ _ hex
    have hc := report_counts g_labels inp bytesNeeded henum (by rw [hm])
    refine ⟨Or.inr hm, Or.inr ?_⟩
    rw [hc.1, hc.2, hm]
    simp [countCrashedAt, countUnableToIdentify, Line.isCrashedAt, Line.isUnableToIdentify]
  · have hm := identifyModule_found inp _ _ j offset modName hfound
    have hc := report_counts g_labels inp bytesNeeded henum (by rw [hm])
    refine ⟨Or.inl ⟨offset, modName, hm⟩, Or.inl ?_⟩
    rw [hc.1, hc.2, hm]
    simp [countCrashedAt, countUnableToIdentify, Line.isCrashedAt, Line.isUnableToIdentify]

/-- C5 at `nameFailsCrash`: three modules, every query returns, the file-name
query fails each time. -/
theorem C5_exactly_one_outcome_witness :
    nameFailsCrash.EnumProcessModules = Outcome.ok 12 ∧
    (∀ i, i < moduleCount 12 → identReturns nameFailsCrash i) ∧
    ((∃ offset modName,
        identifyModule nameFailsCrash nameFailsCrash.ContextRecord.Eip (moduleCount 12) =
          ([Line.crashedAt offset modName, Line.crashedNote, Line.blank], false)) ∨
      identifyModule nameFailsCrash nameFailsCrash.ContextRecord.Eip (moduleCount 12) =
        ([Line.unableToIdentify, Line.unableNote, Line.blank], false)) ∧
    ((countCrashedAt (_logCrash sampleLabels nameFailsCrash).1 = 1 ∧
        countUnableToIdentify (_logCrash sampleLabels nameFailsCrash).1 = 0) ∨
      (countCrashedAt (_logCrash sampleLabels nameFailsCrash).1 = 0 ∧
        countUnableToIdentify (_logCrash sampleLabels nameFailsCrash).1 = 1)) :=
  ⟨rfl, by decide,
    C5_exactly_one_outcome sampleLabels nameFailsCrash 12 rfl (by decide)⟩

/-- C6, as stated, fails: in `nameFailsCrash` the instruction pointer
`0x401010` lies in `[0x400000, 0x500000)`, the range of the module in slot 0,
every query returns, and yet no module is reported, because the file-name
query for that module fails: the step prints "unable to identify". -/
theorem C6_counterexample :
    ¬ ∀ (inp : CrashInput) (bytesNeeded i : Nat) (info : MODULEINFO),
        inp.EnumProcessModules = Outcome.ok bytesNeeded →
        (∀ j, j < moduleCount bytesNeeded → identReturns inp j) →
        i < moduleCount bytesNeeded →
        inp.identInformation i = Outcome.ok info →
        inModule info inp.ContextRecord.Eip →
        (∀ j, j < i → ∀ info', inp.identInformation j = Outcome.ok info' →
          ¬ inModule info' inp.ContextRecord.Eip) →
        ∃ modName,
          identifyModule inp inp.ContextRecord.Eip (moduleCount bytesNeeded) =
            ([Line.crashedAt (inp.ContextRecord.Eip - info.lpBaseOfDll) modName,
              Line.crashedNote, Line.blank], false) := by
  intro h
  obtain ⟨modName, hm⟩ := h nameFailsCrash 12 0 ⟨0x400000, 0x100000⟩ rfl (by decide)
    (by decide) rfl (by decide) (fun j hj => absurd hj (Nat.not_lt_zero j))
  have hreal : identifyModule nameFailsCrash nameFailsCrash.ContextRecord.Eip (moduleCount 12) =
      ([Line.unableToIdentify, Line.unableNote, Line.blank], false) := by decide
  rw [hreal] at hm
  simp at hm

/-- C6, amended: when `EnumProcessModules` succeeds, the module reported is
the one in the first slot `i < count` at which the loop body reports, that is,
whose information query succeeds, whose range as the code computes it
(`base ≤ eip` and `eip < (base + SizeOfImage) mod 2^32`) holds the instruction
pointer and whose file-name query succeeds, every earlier slot having been
skipped; the offset printed is `eip - base`. When every slot below `count` is
skipped, no module is reported and "unable to identify" is printed. -/
theorem C6_first_reporting_slot (g_labels : List CrashLogLabel) (inp : CrashInput)
    (bytesNeeded : Nat) (henum : inp.EnumProcessModules = Outcome.ok bytesNeeded) :
    (∀ i offset modName, i < moduleCount bytesNeeded →
      slotVerdict inp inp.ContextRecord.Eip i = SlotVerdict.reports offset modName →
      (∀ j, j < i → slotVerdict inp inp.ContextRecord.Eip j = SlotVerdict.skips) →
      identifyModule inp inp.ContextRecord.Eip (moduleCount bytesNeeded) =
          ([Line.crashedAt offset modName, Line.crashedNote, Line.blank], false) ∧
        countCrashedAt (_logCrash g_labels inp).1 = 1 ∧
        countUnableToIdentify (_logCrash g_labels inp).1 = 0) ∧
    ((∀ i, i < moduleCount bytesNeeded →
        slotVerdict inp inp.ContextRecord.Eip i = SlotVerdict.skips) →
      identifyModule inp inp.ContextRecord.Eip (moduleCount bytesNeeded) =
          ([Line.unableToIdentify, Line.unableNote, Line.blank], false) ∧
        countCrashedAt (_logCrash g_labels inp).1 = 0 ∧
        countUnableToIdentify (_logCrash g_labels inp).1 = 1) ∧
    (∀ eip i offset modName,
      slotVerdict inp eip i = SlotVerdict.reports offset modName ↔
        ∃ info, inp.identInformation i = Outcome.ok info ∧
          info.lpBaseOfDll % wordModulus ≤ eip ∧
          eip < (info.lpBaseOfDll % wordModulus + info.SizeOfImage) % wordModulus ∧
          inp.identFileName i = Outcome.ok modName ∧
          offset = eip - info.lpBaseOfDll % wordModulus) := by
  refine ⟨?_, ?_, ?_⟩
  · intro i offset modName hi hrep hskip
    have hloop := identifyLoop_found inp inp.ContextRecord.Eip offset modName
      (moduleCount bytesNeeded) 0 i hi (by rwa [Nat.zero_add])
      (fun j hj => by rw [Nat.zero_add]; exact hskip j hj)
    have hm := identifyModule_found inp _ _ _ offset modName hloop
    have hc := report_counts g_labels inp bytesNeeded henum (by rw [hm])
    refine ⟨hm, ?_, ?_⟩
    · rw [hc.1, hm]; simp [countCrashedAt, Line.isCrashedAt]
    · rw [hc.2, hm]; simp [countUnableToIdentify, Line.isUnableToIdentify]
  · intro hskip
    have hloop := identifyLoop_exhausted inp inp.ContextRecord.Eip
      (moduleCount bytesNeeded) 0 (fun k hk => by rw [Nat.zero_add]; exact hskip k hk)
    have hm := identifyModule_exhausted inp _ _ hloop
    have hc := report_counts g_labels inp bytesNeeded henum (by rw [hm])
    refine ⟨hm, ?_, ?_⟩
    · rw [hc.1, hm]; simp [countCrashedAt, Line.isCrashedAt]
    · rw [hc.2, hm]; simp [countUnableToIdentify, Line.isUnableToIdentify]
  · intro eip i offset modName
    have hoff : ∀ base, base ≤ eip → eip < wordModulus →
        (eip + wordModulus - base) % wordModulus = eip - base := by
      intro base hb he
      have : eip + wordModulus - base = eip - base + wordModulus := by omega
      rw [this, Nat.add_mod_right, Nat.mod_eq_of_lt (by omega)]
    unfold slotVerdict
    cases hinfo : inp.identInformation i with
    | raised => simp
    | failed => simp
    | ok info =>
      simp only
      have hmlt : ∀ x, x % wordModulus < wordModulus := fun x =>
        Nat.mod_lt _ (by decide)
      split
      · rename_i hin
        cases hname : inp.identFileName i with
        | raised => simp
        | failed => simp
        | ok name =>
          have hlt : eip < wordModulus := lt_trans hin.2 (hmlt _)
          simp only [SlotVerdict.reports.injEq, Outcome.ok.injEq, exists_eq_left']
          rw [hoff _ hin.1 hlt]
          constructor
          · rintro ⟨rfl, rfl⟩
            exact ⟨hin.1, hin.2, rfl, rfl⟩
          · rintro ⟨_, _, rfl, rfl⟩
            exact ⟨rfl, rfl⟩
      · rename_i hin
        simp only [false_iff, reduceCtorEq, not_exists, not_and, Outcome.ok.injEq]
        rintro info' rfl h1 h2
        exact absurd ⟨h1, h2⟩ hin

/-- C6 at `sampleCrash`: slot 0 reports with offset `0x1010`; and at
`nameFailsCrash`: every slot is skipped. -/
theorem C6_first_reporting_slot_witness :
    sampleCrash.EnumProcessModules = Outcome.ok 12 ∧
    nameFailsCrash.EnumProcessModules = Outcome.ok 12 ∧
    (identifyModule sampleCrash sampleCrash.ContextRecord.Eip (moduleCount 12) =
        ([Line.crashedAt 0x1010 "TESV.exe", Line.crashedNote, Line.blank], false) ∧
      countCrashedAt (_logCrash sampleLabels sampleCrash).1 = 1 ∧
      countUnableToIdentify (_logCrash sampleLabels sampleCrash).1 = 0) ∧
    (identifyModule nameFailsCrash nameFailsCrash.ContextRecord.Eip (moduleCount 12) =
        ([Line.unableToIdentify, Line.unableNote, Line.blank], false) ∧
      countCrashedAt (_logCrash sampleLabels nameFailsCrash).1 = 0 ∧
      countUnableToIdentify (_logCrash sampleLabels nameFailsCrash).1 = 1) :=
  ⟨rfl, rfl,
    (C6_first_reporting_slot sampleLabels sampleCrash 12 rfl).1 0 0x1010 "TESV.exe"
      (by decide) (by decide) (fun j hj => absurd hj (Nat.not_lt_zero j)),
    (C6_first_reporting_slot sampleLabels nameFailsCrash 12 rfl).2.1 (by decide)⟩

/-! ## C7: capacity of the module listing -/

/-- C7, as stated, fails: in `crowdedNamelessCrash` 141 modules are loaded
(`bytesNeeded = 564`) and every query returns, but the file-name query of the
listing fails for each module, so the listing has no module line at all, not
140. -/
theorem C7_counterexample :
    ¬ ∀ (g_labels : List CrashLogLabel) (inp : CrashInput) (bytesNeeded : Nat),
        inp.EnumProcessModules = Outcome.ok bytesNeeded →
        (∀ i, i < moduleCount bytesNeeded → identReturns inp i) →
        (∀ i, i < moduleCount bytesNeeded → listRaisesAt inp i = false) →
        LOAD_COUNT < bytesNeeded / sizeofHMODULE →
        countModuleLines (_logCrash g_labels inp).1 = LOAD_COUNT := by
  intro h
  have hret : ∀ i, i < moduleCount 564 → identReturns crowdedNamelessCrash i := by decide
  have hclaim := h sampleLabels crowdedNamelessCrash 564 rfl hret (by decide) (by decide)
  rw [report_moduleLines sampleLabels crowdedNamelessCrash 564 rfl hret] at hclaim
  have hzero : ((listLoop crowdedNamelessCrash (moduleCount 564) 0).1).length = 0 := by decide
  rw [hzero] at hclaim
  exact absurd hclaim (by decide)

/-- C7, amended: for every successful enumeration result `bytesNeeded`, the
number of slots examined is `min(bytesNeeded / sizeof(HMODULE), 140)`, at most
140, and the report has at most that many module lines. With `n` modules
loaded (`bytesNeeded = sizeof(HMODULE) * n`) the overflow flag is set exactly
when `n > 140`, and "TOO MANY MODULES TO LIST!" is in the report only if the
flag is set. When the queries of the identification loop return and no pass
of the listing loop raises, there is one module line for each examined slot
whose file-name query succeeds, and "TOO MANY MODULES TO LIST!" is in the
report exactly when the flag is set. When moreover every examined slot's
file-name query succeeds and more than 140 modules are loaded, the report has
exactly 140 module lines and "TOO MANY MODULES TO LIST!". -/
theorem C7_listing_capacity (g_labels : List CrashLogLabel) (inp : CrashInput)
    (bytesNeeded : Nat) (henum : inp.EnumProcessModules = Outcome.ok bytesNeeded) :
    moduleCount bytesNeeded = min (bytesNeeded / sizeofHMODULE) 140 ∧
    moduleCount bytesNeeded ≤ 140 ∧
    countModuleLines (_logCrash g_labels inp).1 ≤ moduleCount bytesNeeded ∧
    (∀ n, bytesNeeded = sizeofHMODULE * n → (overflowFlag bytesNeeded = true ↔ 140 < n)) ∧
    (Line.tooMany ∈ (_logCrash g_labels inp).1 → overflowFlag bytesNeeded = true) ∧
    ((∀ i, i < moduleCount bytesNeeded → identReturns inp i) →
      (∀ i, i < moduleCount bytesNeeded → listRaisesAt inp i = false) →
      countModuleLines (_logCrash g_labels inp).1 =
          ((List.range (moduleCount bytesNeeded)).filter
            (fun i => (inp.listFileName i).isOk)).length ∧
        (Line.tooMany ∈ (_logCrash g_labels inp).1 ↔ overflowFlag bytesNeeded = true)) ∧
    ((∀ i, i < moduleCount bytesNeeded → identReturns inp i) →
      (∀ i, i < moduleCount bytesNeeded →
        (inp.listFileName i).isOk = true ∧ listRaisesAt inp i = false) →
      140 < bytesNeeded / sizeofHMODULE →
      countModuleLines (_logCrash g_labels inp).1 = 140 ∧
        Line.tooMany ∈ (_logCrash g_labels inp).1) := by
  have hcount := report_moduleLines_of_enum g_labels inp bytesNeeded henum
  have hrep := tooMany_mem_report g_labels inp bytesNeeded henum
  have hmem := tooMany_mem_listModules inp (moduleCount bytesNeeded) (overflowFlag bytesNeeded)
  refine ⟨rfl, ?_, ?_, ?_, ?_, ?_, ?_⟩
  · simp only [moduleCount, LOAD_COUNT]; omega
  · rw [hcount]
    have := listLoop_length_le inp (moduleCount bytesNeeded) 0
    split
    · omega
    · exact this
  · intro n hn
    subst hn
    simp only [overflowFlag, LOAD_COUNT, sizeofHMODULE, decide_eq_true_eq]
    omega
  · intro h; exact (hmem.1 (hrep.1 h).2).2
  · intro hret hno
    have hident := identifyModule_completes inp inp.ContextRecord.Eip _ hret
    have hc := listLoop_complete inp (moduleCount bytesNeeded) 0
      (fun k hk => by rw [Nat.zero_add]; exact hno k hk)
    refine ⟨?_, ?_⟩
    · rw [hcount, hident, hc.2, List.range_eq_range']; simp
    · rw [hrep, hmem, hident, hc.1]; simp
  · intro hret hall hmore
    have hident := identifyModule_completes inp inp.ContextRecord.Eip _ hret
    have hf := listLoop_full inp (moduleCount bytesNeeded) hall
    have h140 : moduleCount bytesNeeded = 140 := by
      simp only [moduleCount, LOAD_COUNT]; omega
    have hflag : overflowFlag bytesNeeded = true := by
      simp only [overflowFlag, LOAD_COUNT, sizeofHMODULE, decide_eq_true_eq] at hmore ⊢
      omega
    refine ⟨?_, ?_⟩
    · rw [hcount, hident, hf.2, h140]; simp
    · rw [hrep, hmem, hident, hf.1, hflag]; simp

/-- C7 at `crowdedCrash`: 141 modules loaded, every query succeeds, 140 module
lines and the overflow note. -/
theorem C7_listing_capacity_witness :
    crowdedCrash.EnumProcessModules = Outcome.ok 564 ∧
    (∀ i, i < moduleCount 564 → identReturns crowdedCrash i) ∧
    (∀ i, i < moduleCount 564 →
      (crowdedCrash.listFileName i).isOk = true ∧ listRaisesAt crowdedCrash i = false) ∧
    140 < 564 / sizeofHMODULE ∧
    countModuleLines (_logCrash sampleLabels crowdedCrash).1 = 140 ∧
    Line.tooMany ∈ (_logCrash sampleLabels crowdedCrash).1 :=
  ⟨rfl, by decide, by decide, by decide,
    (C7_listing_capacity sampleLabels crowdedCrash 564 rfl).2.2.2.2.2.2
      (by decide) (by decide) (by decide)⟩

/-! ## C8: the stack scan -/

/-- C8: for every stack and label table the stack scan prints exactly 40
lines, line `i` being made from the word `esp[i]`, and these are the 40 lines
of the report that follow the eleven lines of header, instruction pointer and
registers. For `i < 40`, line `i` is the word alone when `GetLabel` finds
nothing, the word with `VTBL:` and the label name when the label's kind is
`vtbl`, and the word with the bare label name for every other kind. -/
theorem C8_stack_scan (g_labels : List CrashLogLabel) (inp : CrashInput) (i : Nat)
    (hi : i < ce_printStackCount) :
    (printStack g_labels inp.stack 0).length = 40 ∧
    printStack g_labels inp.stack 0 =
      (List.range 40).map (fun k => stackLine g_labels (inp.stack k)) ∧
    ((_logCrash g_labels inp).1.drop 11).take 40 = printStack g_labels inp.stack 0 ∧
    (printStack g_labels inp.stack 0)[i]? = some (stackLine g_labels (inp.stack i)) ∧
    (GetLabel g_labels (inp.stack i) = none →
      (printStack g_labels inp.stack 0)[i]? = some (Line.stackRaw (inp.stack i))) ∧
    (∀ label, GetLabel g_labels (inp.stack i) = some label → label.type = LabelType.vtbl →
      (printStack g_labels inp.stack 0)[i]? =
        some (Line.stackVtbl (inp.stack i) label.name)) ∧
    (∀ label, GetLabel g_labels (inp.stack i) = some label → label.type ≠ LabelType.vtbl →
      (printStack g_labels inp.stack 0)[i]? =
        some (Line.stackLabel (inp.stack i) label.name)) := by
  have hlen : (printStack g_labels inp.stack 0).length = 40 := by
    rw [printStack_zero]; simp
  have hline : (printStack g_labels inp.stack 0)[i]? =
      some (stackLine g_labels (inp.stack i)) := by
    have hi40 : i < 40 := hi
    rw [printStack_zero, List.getElem?_map, List.getElem?_range hi40]
    rfl
  refine ⟨hlen, printStack_zero g_labels inp.stack, ?_, hline, ?_, ?_, ?_⟩
  · have hsplit : (_logCrash g_labels inp).1 =
        [Line.header, eipLine g_labels inp.ContextRecord.Eip, Line.regHeader,
          Line.reg "eax" inp.ContextRecord.Eax, Line.reg "ebx" inp.ContextRecord.Ebx,
          Line.reg "ecx" inp.ContextRecord.Ecx, Line.reg "edx" inp.ContextRecord.Edx,
          Line.reg "edi" inp.ContextRecord.Edi, Line.reg "esi" inp.ContextRecord.Esi,
          Line.reg "ebp" inp.ContextRecord.Ebp, Line.stackHeader inp.ContextRecord.Esp]
          ++ (printStack g_labels inp.stack 0
            ++ (moduleDebug inp inp.ContextRecord.Eip).1) := by
      simp [_logCrash, registersAndStack]
    rw [hsplit, List.drop_append_of_le_length (by simp)]
    simp only [List.length_cons, List.length_nil, List.drop_succ_cons, List.drop_zero,
      List.nil_append]
    rw [List.take_append_of_le_length (by omega), ← hlen, List.take_length]
  · intro hnone
    rw [hline]; simp [stackLine, hnone]
  · intro label hsome hv
    rw [hline]; simp [stackLine, hsome, hv]
  · intro label hsome hv
    rw [hline]; simp [stackLine, hsome, hv]

/-- C8 at `sampleCrash` with `sampleLabels`: word 0 resolves to a subroutine,
word 1 to a vtable, word 2 to nothing. -/
theorem C8_stack_scan_witness :
    (0 < ce_printStackCount ∧ 1 < ce_printStackCount ∧ 2 < ce_printStackCount) ∧
    (printStack sampleLabels sampleCrash.stack 0).length = 40 ∧
    (printStack sampleLabels sampleCrash.stack 0)[0]? =
      some (Line.stackLabel 0x401030 "TESForm::Load") ∧
    (printStack sampleLabels sampleCrash.stack 0)[1]? =
      some (Line.stackVtbl 0x401100 "TESForm") ∧
    (printStack sampleLabels sampleCrash.stack 0)[2]? = some (Line.stackRaw 2) :=
  ⟨by decide,
    (C8_stack_scan sampleLabels sampleCrash 0 (by decide)).1,
    (C8_stack_scan sampleLabels sampleCrash 0 (by decide)).2.2.2.2.2.2
      { start := 0x401000, size := 0x40, name := "TESForm::Load",
        type := LabelType.subroutine } (by decide) (by decide),
    (C8_stack_scan sampleLabels sampleCrash 1 (by decide)).2.2.2.2.2.1
      { start := 0x401020, size := 0x100, name := "TESForm", type := LabelType.vtbl }
      (by decide) (by decide),
    (C8_stack_scan sampleLabels sampleCrash 2 (by decide)).2.2.2.2.1 (by decide)⟩

/-! ## C9: installing the filter -/

theorem SetupCrashLogging_keeps_foreign (enabled : Bool) (p : Process)
    (h : p.s_originalFilter ≠ some FilterRef.ours) :
    (SetupCrashLogging enabled p).s_originalFilter ≠ some FilterRef.ours := by
  unfold SetupCrashLogging SetUnhandledExceptionFilter
  cases enabled with
  | false => simpa using h
  | true =>
    by_cases hf : p.registered = some FilterRef.ours
    · simpa [hf] using h
    · simp [hf]

theorem runSetup_keeps_foreign (flags : List Bool) :
    ∀ p : Process, p.s_originalFilter ≠ some FilterRef.ours →
      (runSetup p flags).s_originalFilter ≠ some FilterRef.ours := by
  induction flags with
  | nil => intro p h; exact h
  | cons enabled rest ih =>
    intro p h
    exact ih _ (SetupCrashLogging_keeps_foreign enabled p h)

/-- C9, as stated, fails: set up once in a process whose registered filter is
the foreign filter 7, then set up again. The second call finds our own filter
registered, and afterwards `s_originalFilter` is still the foreign filter 7,
not unset. -/
theorem C9_counterexample :
    ¬ ∀ p : Process, p.registered = some FilterRef.ours →
        (SetupCrashLogging true p).s_originalFilter = none := by
  intro h
  have hclaim := h (SetupCrashLogging true (Process.initial (some (FilterRef.foreign 7))))
    (by decide)
  exact absurd hclaim (by decide)

/-- C9, amended: when `SetupCrashLogging` runs enabled and the filter already
registered is this same filter, `s_originalFilter` is left as it was (unset if
it was unset, as at program start; the filter captured earlier otherwise),
nothing is logged and our filter stays registered; when the registered filter
is a different one or none, `s_originalFilter` becomes exactly that filter and
our filter is registered; when crash logging is disabled the process state is
unchanged. In every case `s_originalFilter` is not our own filter after the
call if it was not before, and it never is after any sequence of calls from
program start, so the filter never chains to itself. -/
theorem C9_setup (p : Process) (enabled : Bool) :
    (enabled = true → p.registered = some FilterRef.ours →
      SetupCrashLogging enabled p = p) ∧
    (enabled = true → p.registered ≠ some FilterRef.ours →
      SetupCrashLogging enabled p =
        { p with registered := some FilterRef.ours, s_originalFilter := p.registered,
                 log := p.log ++ [Line.appliedFilter] }) ∧
    (enabled = false → SetupCrashLogging enabled p = p) ∧
    (p.s_originalFilter ≠ some FilterRef.ours →
      (SetupCrashLogging enabled p).s_originalFilter ≠ some FilterRef.ours) ∧
    (∀ (registered : Option FilterRef) (flags : List Bool),
      (runSetup (Process.initial registered) flags).s_originalFilter ≠ some FilterRef.ours) ∧
    (SetupCrashLogging true (Process.initial (some FilterRef.ours))).s_originalFilter = none := by
  refine ⟨?_, ?_, ?_, SetupCrashLogging_keeps_foreign enabled p, ?_, rfl⟩
  · intro he hr
    subst he
    cases p
    simp only at hr
    simp [SetupCrashLogging, SetUnhandledExceptionFilter, hr]
  · intro he hr
    subst he
    simp [SetupCrashLogging, SetUnhandledExceptionFilter, hr]
  · intro he
    subst he
    simp [SetupCrashLogging]
  · intro registered flags
    exact runSetup_keeps_foreign flags _ (by simp [Process.initial])

/-- C9 at concrete processes: a duplicate install over `installedProcess`
changes nothing; a first install over the foreign filter 7 captures it; a
disabled setup changes nothing. -/
theorem C9_setup_witness :
    (installedProcess.registered = some FilterRef.ours ∧
      SetupCrashLogging true installedProcess = installedProcess) ∧
    ((Process.initial (some (FilterRef.foreign 7))).registered ≠ some FilterRef.ours ∧
      SetupCrashLogging true (Process.initial (some (FilterRef.foreign 7))) =
        { caught := false, s_originalFilter := some (FilterRef.foreign 7),
          registered := some FilterRef.ours, log := [Line.appliedFilter] }) ∧
    SetupCrashLogging false installedProcess = installedProcess ∧
    (installedProcess.s_originalFilter ≠ some FilterRef.ours ∧
      (SetupCrashLogging true installedProcess).s_originalFilter ≠ some FilterRef.ours) :=
  ⟨⟨rfl, (C9_setup installedProcess true).1 rfl rfl⟩,
    ⟨by decide, (C9_setup (Process.initial (some (FilterRef.foreign 7))) true).2.1 rfl
      (by decide)⟩,
    (C9_setup installedProcess false).2.2.1 rfl,
    ⟨by decide, (C9_setup installedProcess true).2.2.2.1 (by decide)⟩⟩

/-! ## C10: failure inside the module listing -/

end CrashLog
